import Mathlib

/-!
# Room-access and gold-credit transaction subsystem: a shallow embedding

This file embeds the room-access / gold-credit core of the chat-app backend
(the `createRoom`, `joinRoom` and `purchaseGold` handlers together with the
drizzle table declarations of `db/schema.ts`) as executable Lean functions
over an explicit database state, and proves or refutes the specified
properties of that core.

Modelling conventions:
* The durable store is a record of lists (one per table) plus the serial
  counters.  Monetary amounts and integer columns are `Int` (JS numbers used
  as integers); ids are `Nat`.
* Each durable WRITE step of a handler takes an explicit `Bool` argument:
  `true` means the step commits, `false` means the store fails that step
  (the handler observes a thrown store error).  Every read in every handler
  happens before its first write, so a failing read is indistinguishable
  from failing the first write and is not modelled separately.
* `createRoom` runs inside `db.transaction`: any failure inside the callback
  rolls the whole operation back, so every failure exit returns the original
  state.  `joinRoom` and `purchaseGold` issue their writes as plain
  sequential calls, so on a failed step the writes already issued stay
  persisted; the embedding returns the partially-updated state there.
* JS `x || y` on strings/numbers is modelled explicitly (empty string and 0
  are falsy); `undefined` and `null` are both `Option.none`.
-/

/-- `room_type` enum of `db/schema.ts` (`public` and `private` are Lean
keywords, hence `pub`/`priv`). -/
inductive RoomType
  | pub
  | priv
  | premium
deriving DecidableEq, Repr

/-- `participant_role` enum of `db/schema.ts`. -/
inductive ParticipantRole
  | member
  | moderator
  | admin
deriving DecidableEq, Repr

/-- `transaction_type` enum of `db/schema.ts`. -/
inductive TransactionType
  | purchase
  | spend
  | refund
  | bonus
deriving DecidableEq, Repr

/-- A row of `usersTable` (only the columns the core reads or writes). -/
structure User where
  id : Nat
  gold_credits : Int
deriving DecidableEq, Repr

/-- A row of `roomsTable` (timestamps omitted: no handler in the core reads
them). -/
structure Room where
  id : Nat
  name : String
  description : Option String
  room_type : RoomType
  max_participants : Option Int
  gold_cost : Option Int
  owner_id : Nat
  is_active : Bool
deriving DecidableEq, Repr

/-- A row of `roomParticipantsTable`. -/
structure RoomParticipant where
  id : Nat
  room_id : Nat
  user_id : Nat
  participant_role : ParticipantRole
deriving DecidableEq, Repr

/-- A row of `goldTransactionsTable`. -/
structure GoldTransaction where
  id : Nat
  user_id : Nat
  amount : Int
  transaction_type : TransactionType
  description : String
  reference_id : Option String
deriving DecidableEq, Repr

/-- The durable store: one list per table (in insertion order, matching the
append-only serial ids) plus the `serial` counters. -/
structure DBState where
  users : List User
  rooms : List Room
  participants : List RoomParticipant
  transactions : List GoldTransaction
  nextRoomId : Nat
  nextParticipantId : Nat
  nextTransactionId : Nat
deriving DecidableEq, Repr

/-- The typed failures the three handlers throw (`throw new Error(msg)` in
the source), plus the store's own failure (a rejected insert/update). -/
inductive HandlerError
  | roomNotFound
  | roomInactive
  | alreadyParticipant
  | roomFull
  | userNotFound
  | userWithIdNotFound (userId : Nat)
  | insufficientFunds
  | storeFailure
deriving DecidableEq, Repr

/-- The exact message string each handler failure carries in the source. -/
def HandlerError.message : HandlerError → String
  | .roomNotFound => "Room not found"
  | .roomInactive => "Room is not active"
  | .alreadyParticipant => "User is already a participant in this room"
  | .roomFull => "Room has reached maximum participant limit"
  | .userNotFound => "User not found"
  | .userWithIdNotFound userId => "User with id " ++ toString userId ++ " not found"
  | .insufficientFunds => "Insufficient gold credits"
  | .storeFailure => "Store failure"

/-- `db.select().from(usersTable).where(eq(usersTable.id, userId))`, first
row if any. -/
def findUser (s : DBState) (userId : Nat) : Option User :=
  s.users.find? (fun u => u.id == userId)

/-- `db.select().from(roomsTable).where(eq(roomsTable.id, roomId))`, first
row if any. -/
def findRoom (s : DBState) (roomId : Nat) : Option Room :=
  s.rooms.find? (fun r => r.id == roomId)

/-- `SELECT count(*) FROM room_participants WHERE room_id = roomId`. -/
def participantCount (s : DBState) (roomId : Nat) : Nat :=
  (s.participants.filter (fun p => p.room_id == roomId)).length

/-- Rows of `room_participants` for a given (room, user) pair. -/
def pairRows (s : DBState) (roomId userId : Nat) : List RoomParticipant :=
  s.participants.filter (fun p => p.room_id == roomId && p.user_id == userId)

/-- `UPDATE users SET gold_credits = newBal WHERE id = userId` (the form
`joinRoom` and `purchaseGold` use: the new balance is computed in JS from
the previously read row). -/
def updateBalanceTo (s : DBState) (userId : Nat) (newBal : Int) : DBState :=
  { s with users := s.users.map fun u =>
      if u.id == userId then { u with gold_credits := newBal } else u }

/-- `UPDATE users SET gold_credits = gold_credits + delta WHERE id = userId`
(the in-place SQL form `createRoom` uses). -/
def adjustBalanceBy (s : DBState) (userId : Nat) (delta : Int) : DBState :=
  { s with users := s.users.map fun u =>
      if u.id == userId then { u with gold_credits := u.gold_credits + delta } else u }

/-- `INSERT INTO gold_transactions ... RETURNING *`. -/
def appendTransaction (s : DBState) (userId : Nat) (amount : Int)
    (ttype : TransactionType) (desc : String) (ref : Option String) :
    GoldTransaction × DBState :=
  let t : GoldTransaction :=
    { id := s.nextTransactionId, user_id := userId, amount := amount,
      transaction_type := ttype, description := desc, reference_id := ref }
  (t, { s with transactions := s.transactions ++ [t],
                nextTransactionId := s.nextTransactionId + 1 })

/-- `INSERT INTO room_participants ... RETURNING *`. -/
def insertParticipant (roomId userId : Nat) (role : ParticipantRole)
    (s : DBState) : RoomParticipant × DBState :=
  let p : RoomParticipant :=
    { id := s.nextParticipantId, room_id := roomId, user_id := userId,
      participant_role := role }
  (p, { s with participants := s.participants ++ [p],
                nextParticipantId := s.nextParticipantId + 1 })

/-! ## purchaseGold (handlers/purchase_gold.ts) -/

/-- `purchaseGoldInputSchema` of `schema.ts`: `amount` a positive integer,
`payment_reference` an optional string. -/
structure PurchaseGoldInput where
  amount : Int
  payment_reference : Option String
deriving DecidableEq, Repr

/-- Zod constraints on `PurchaseGoldInput` (`z.number().int().positive()`). -/
def PurchaseGoldInput.Valid (i : PurchaseGoldInput) : Prop :=
  0 < i.amount

/-- The generated reference id: `` `purchase_${Date.now()}_${userId}` ``,
with the wall clock passed in as `now`. -/
def generatedReference (now userId : Nat) : String :=
  ("purchase_" ++ toString now ++ "_") ++ toString userId

/-- `input.payment_reference || generated`: JS `||`, so an empty string also
falls back to the generated id. -/
def paymentRefOr (pr : Option String) (now userId : Nat) : String :=
  match pr with
  | some r => if r = "" then generatedReference now userId else r
  | none => generatedReference now userId

/-- `purchaseGold(input, userId)`.  Write steps: `w1` the ledger insert,
`w2` the balance update.  No surrounding transaction in the source: a
failed `w2` leaves the ledger insert persisted. -/
def purchaseGold (input : PurchaseGoldInput) (userId : Nat) (now : Nat)
    (w1 w2 : Bool) (s : DBState) :
    Except HandlerError GoldTransaction × DBState :=
  match findUser s userId with
  | none => (.error (.userWithIdNotFound userId), s)
  | some user =>
    let referenceId := paymentRefOr input.payment_reference now userId
    if w1 then
      let (txn, s1) := appendTransaction s userId input.amount .purchase
        ("Gold purchase: " ++ toString input.amount ++ " credits") (some referenceId)
      if w2 then
        (.ok txn, updateBalanceTo s1 userId (user.gold_credits + input.amount))
      else (.error .storeFailure, s1)
    else (.error .storeFailure, s)

/-! ## joinRoom (handlers/join_room.ts) -/

/-- `joinRoomInputSchema` of `schema.ts`. -/
structure JoinRoomInput where
  room_id : Nat
deriving DecidableEq, Repr

/-- The premium-room charge condition of `joinRoom`:
`room.room_type === 'premium' && room.gold_cost !== null && room.gold_cost > 0`;
returns the cost when a charge is due. -/
def premiumCharge (room : Room) : Option Int :=
  match room.room_type, room.gold_cost with
  | RoomType.premium, some c => if 0 < c then some c else none
  | _, _ => none

/-- The capacity check of `joinRoom`: when `max_participants` is set,
`participantCount >= room.max_participants`. -/
def joinRoomFull (room : Room) (roomId : Nat) (s : DBState) : Bool :=
  match room.max_participants with
  | some m => decide (m ≤ (participantCount s roomId : Int))
  | none => false

/-- The final participant insert of `joinRoom` (`w3` is that write step). -/
def joinRoomInsert (roomId userId : Nat) (w3 : Bool) (s : DBState) :
    Except HandlerError RoomParticipant × DBState :=
  if w3 then
    let (p, s') := insertParticipant roomId userId .member s
    (.ok p, s')
  else (.error .storeFailure, s)

/-- `joinRoom(input, userId)`.  Write steps: `w1` the balance update, `w2`
the ledger insert (both only on the premium-charge path), `w3` the
participant insert.  No surrounding transaction in the source: a failed
later step leaves the earlier writes persisted. -/
def joinRoom (input : JoinRoomInput) (userId : Nat) (w1 w2 w3 : Bool)
    (s : DBState) : Except HandlerError RoomParticipant × DBState :=
  match findRoom s input.room_id with
  | none => (.error .roomNotFound, s)
  | some room =>
    if !room.is_active then (.error .roomInactive, s)
    else if 0 < (pairRows s input.room_id userId).length then
      (.error .alreadyParticipant, s)
    else if joinRoomFull room input.room_id s then (.error .roomFull, s)
    else
      match premiumCharge room with
      | none => joinRoomInsert input.room_id userId w3 s
      | some c =>
        match findUser s userId with
        | none => (.error .userNotFound, s)
        | some user =>
          if user.gold_credits < c then (.error .insufficientFunds, s)
          else if w1 then
            let s1 := updateBalanceTo s userId (user.gold_credits - c)
            if w2 then
              let (_, s2) := appendTransaction s1 userId (-c) .spend
                ("Joined premium room: " ++ room.name)
                (some ("room_join_" ++ toString room.id))
              joinRoomInsert input.room_id userId w3 s2
            else (.error .storeFailure, s1)
          else (.error .storeFailure, s)

/-! ## createRoom (handlers/create_room.ts) -/

/-- `createRoomInputSchema` of `schema.ts`. -/
structure CreateRoomInput where
  name : String
  description : Option String
  room_type : RoomType
  max_participants : Option Int
  gold_cost : Option Int
deriving DecidableEq, Repr

/-- Zod constraints on `CreateRoomInput`: name 1–100 chars,
`max_participants` positive, `gold_cost` non-negative. -/
def CreateRoomInput.Valid (i : CreateRoomInput) : Prop :=
  1 ≤ i.name.length ∧ i.name.length ≤ 100 ∧
  (∀ m, i.max_participants = some m → 0 < m) ∧
  (∀ c, i.gold_cost = some c → 0 ≤ c)

/-- `input.description || null`: JS `||`, so the empty string becomes null. -/
def descriptionOrNull (d : Option String) : Option String :=
  match d with
  | some str => if str = "" then none else some str
  | none => none

/-- `input.max_participants || null`: JS `||`, so 0 becomes null. -/
def maxParticipantsOrNull (m : Option Int) : Option Int :=
  match m with
  | some n => if n = 0 then none else some n
  | none => none

/-- `input.gold_cost !== undefined ? input.gold_cost : null`: stored
verbatim (0 stays 0). -/
def goldCostStored (c : Option Int) : Option Int := c

/-- The room + admin-participant inserts at the end of `createRoom`'s
transaction callback (`w3` the room insert, `w4` the participant insert).
`s0` is the state at `BEGIN`, restored on rollback; `scur` is the state
inside the transaction. -/
def createRoomInsert (input : CreateRoomInput) (userId : Nat) (w3 w4 : Bool)
    (s0 scur : DBState) : Except HandlerError Room × DBState :=
  if w3 then
    let room : Room :=
      { id := scur.nextRoomId, name := input.name,
        description := descriptionOrNull input.description,
        room_type := input.room_type,
        max_participants := maxParticipantsOrNull input.max_participants,
        gold_cost := goldCostStored input.gold_cost,
        owner_id := userId, is_active := true }
    let s1 := { scur with rooms := scur.rooms ++ [room],
                          nextRoomId := scur.nextRoomId + 1 }
    if w4 then
      let (_, s2) := insertParticipant room.id userId .admin s1
      (.ok room, s2)
    else (.error .storeFailure, s0)
  else (.error .storeFailure, s0)

/-- `createRoom(input, userId)`.  The whole body runs inside
`db.transaction`, so every failure exit — a thrown check or a failed write
step `w1`..`w4` — returns the original state `s` (rollback).  Write steps:
`w1` the balance update, `w2` the ledger insert (premium paid path only),
`w3` the room insert, `w4` the admin-participant insert. -/
def createRoom (input : CreateRoomInput) (userId : Nat) (w1 w2 w3 w4 : Bool)
    (s : DBState) : Except HandlerError Room × DBState :=
  match findUser s userId with
  | none => (.error .userNotFound, s)
  | some userData =>
    match input.room_type, input.gold_cost with
    | RoomType.premium, some c =>
      if userData.gold_credits < c then (.error .insufficientFunds, s)
      else if 0 < c then
        if w1 then
          let s1 := adjustBalanceBy s userId (-c)
          if w2 then
            let (_, s2) := appendTransaction s1 userId (-c) .spend
              ("Room creation: " ++ input.name) none
            createRoomInsert input userId w3 w4 s s2
          else (.error .storeFailure, s)
        else (.error .storeFailure, s)
      else createRoomInsert input userId w3 w4 s s
    | _, _ => createRoomInsert input userId w3 w4 s s

/-! ## The operations as a transition system -/

/-- One call of the core: a handler, its input, the acting user, the wall
clock where relevant, and the outcome (`true`/`false`) of each durable
write step the call may issue. -/
inductive Op
  | create (input : CreateRoomInput) (userId : Nat) (w1 w2 w3 w4 : Bool)
  | join (input : JoinRoomInput) (userId : Nat) (w1 w2 w3 : Bool)
  | purchase (input : PurchaseGoldInput) (userId : Nat) (now : Nat) (w1 w2 : Bool)

/-- The input to an op satisfies its Zod schema. -/
def Op.Valid : Op → Prop
  | .create input _ _ _ _ _ => input.Valid
  | .join _ _ _ _ _ => True
  | .purchase input _ _ _ _ => input.Valid

/-- The error an op's call reports, if any. -/
def opErr (o : Op) (s : DBState) : Option HandlerError :=
  match o with
  | .create input userId w1 w2 w3 w4 =>
    match (createRoom input userId w1 w2 w3 w4 s).1 with
    | .error e => some e
    | .ok _ => none
  | .join input userId w1 w2 w3 =>
    match (joinRoom input userId w1 w2 w3 s).1 with
    | .error e => some e
    | .ok _ => none
  | .purchase input userId now w1 w2 =>
    match (purchaseGold input userId now w1 w2 s).1 with
    | .error e => some e
    | .ok _ => none

/-- The persisted state after an op's call (success or failure). -/
def applyOp (o : Op) (s : DBState) : DBState :=
  match o with
  | .create input userId w1 w2 w3 w4 => (createRoom input userId w1 w2 w3 w4 s).2
  | .join input userId w1 w2 w3 => (joinRoom input userId w1 w2 w3 s).2
  | .purchase input userId now w1 w2 => (purchaseGold input userId now w1 w2 s).2

/-- A sequence of calls, applied left to right. -/
def runOps (ops : List Op) (s : DBState) : DBState :=
  ops.foldl (fun t o => applyOp o t) s

/-! ## State invariants -/

/-- The current balance of a user, when the user exists. -/
def userBalance (s : DBState) (userId : Nat) : Option Int :=
  (findUser s userId).map (fun u => u.gold_credits)

/-- Sum of the ledger amounts of one user. -/
def ledgerSum (s : DBState) (userId : Nat) : Int :=
  ((s.transactions.filter (fun t => t.user_id == userId)).map
    (fun t => t.amount)).sum

/-- Every user's balance equals the sum of that user's ledger entries. -/
def balancesMatchLedger (s : DBState) : Prop :=
  ∀ u ∈ s.users, u.gold_credits = ledgerSum s u.id

/-- No user's balance is negative. -/
def balancesNonneg (s : DBState) : Prop :=
  ∀ u ∈ s.users, 0 ≤ u.gold_credits

/-- Every capped room is within its cap. -/
def capacityOK (s : DBState) : Prop :=
  ∀ r ∈ s.rooms,
    match r.max_participants with
    | some m => (participantCount s r.id : Int) ≤ m
    | none => True

/-- At most one participant row per (room, user) pair. -/
def pairUnique (s : DBState) : Prop :=
  s.participants.Pairwise
    (fun p q => ¬(p.room_id = q.room_id ∧ p.user_id = q.user_id))

/-- Structural well-formedness of the store: user ids are unique (the
`serial` primary key), and the `serial` room counter is ahead of every
room id referenced anywhere. -/
structure WF (s : DBState) : Prop where
  usersNodup : (s.users.map (fun u => u.id)).Nodup
  roomsNodup : (s.rooms.map (fun r => r.id)).Nodup
  roomsFresh : ∀ r ∈ s.rooms, r.id < s.nextRoomId
  participantsRoomFresh : ∀ p ∈ s.participants, p.room_id < s.nextRoomId

/-! ## The drizzle table declaration of `room_participants` (db/schema.ts)

For the uniqueness-constraint question the relevant evidence is the table
DECLARATION itself, so we embed its constraint structure verbatim. -/

/-- A column-level constraint in a drizzle `pgTable` declaration. -/
inductive ColumnConstraint
  | primaryKey
  | notNull
  | uniqueCol
  | hasDefault
  | referencesTable (table : String)
deriving DecidableEq, Repr

/-- One column of a `pgTable` declaration. -/
structure ColumnSpec where
  colName : String
  constraints : List ColumnConstraint
deriving DecidableEq, Repr

/-- A `pgTable` declaration: columns plus any composite unique constraints
declared in the optional third argument of `pgTable`. -/
structure TableSpec where
  tableName : String
  columns : List ColumnSpec
  compositeUniques : List (List String)
deriving DecidableEq, Repr

/-- `roomParticipantsTable` as declared in `db/schema.ts` (lines 69–76):
a serial primary key, two not-null foreign keys, a defaulted role column,
a defaulted `joined_at` and a nullable `last_seen_at`; `pgTable` is called
with no third argument, so no composite constraint exists. -/
def roomParticipantsTable : TableSpec :=
  { tableName := "room_participants"
    columns :=
      [ { colName := "id", constraints := [.primaryKey] }
      , { colName := "room_id",
          constraints := [.notNull, .referencesTable "rooms"] }
      , { colName := "user_id",
          constraints := [.notNull, .referencesTable "users"] }
      , { colName := "participant_role", constraints := [.notNull, .hasDefault] }
      , { colName := "joined_at", constraints := [.hasDefault, .notNull] }
      , { colName := "last_seen_at", constraints := [] } ]
    compositeUniques := [] }

/-- The sets of columns on which the declaration enforces uniqueness: the
single-column primary-key/unique columns plus any composite uniques. -/
def uniquenessConstraints (t : TableSpec) : List (List String) :=
  (t.columns.filter fun c =>
      c.constraints.contains ColumnConstraint.primaryKey ||
      c.constraints.contains ColumnConstraint.uniqueCol).map
    (fun c => [c.colName]) ++ t.compositeUniques

/-! ## Decidability of the invariants (used to evaluate them on concrete
stores) -/

deriving instance DecidableEq for Except

instance (s : DBState) : Decidable (balancesMatchLedger s) :=
  List.decidableBAll _ s.users

instance (s : DBState) : Decidable (balancesNonneg s) :=
  List.decidableBAll _ s.users

instance (s : DBState) (r : Room) :
    Decidable (match r.max_participants with
      | some m => (participantCount s r.id : Int) ≤ m
      | none => True) :=
  match r.max_participants with
  | some _ => inferInstance
  | none => inferInstance

instance (s : DBState) : Decidable (capacityOK s) :=
  List.decidableBAll _ s.rooms

instance (s : DBState) : Decidable (pairUnique s) :=
  inferInstanceAs (Decidable (s.participants.Pairwise _))

/-! ## Concrete fixtures -/

/-- An active premium room, id 1, cost 50, no capacity limit. -/
def fxPremiumRoom : Room :=
  { id := 1, name := "gold lounge", description := none,
    room_type := .premium, max_participants := none, gold_cost := some 50,
    owner_id := 2, is_active := true }

/-- A store holding user 1 with 100 credits backed by one +100 ledger entry
and the premium room: `balancesMatchLedger` holds here. -/
def fxS : DBState :=
  { users := [{ id := 1, gold_credits := 100 }]
    rooms := [fxPremiumRoom]
    participants := []
    transactions :=
      [{ id := 0, user_id := 1, amount := 100, transaction_type := .purchase,
         description := "seed", reference_id := none }]
    nextRoomId := 2, nextParticipantId := 1, nextTransactionId := 1 }

example : balancesMatchLedger fxS := by decide

example : (joinRoom ⟨1⟩ 1 true true true fxS).1 =
    Except.ok { id := 1, room_id := 1, user_id := 1, participant_role := .member } := by
  decide

example : userBalance (joinRoom ⟨1⟩ 1 true true true fxS).2 1 = some 50 := by decide

/-! ## Basic lemmas about the store primitives -/

lemma findUser_mem {s : DBState} {uid : Nat} {u : User}
    (h : findUser s uid = some u) : u ∈ s.users ∧ u.id = uid :=
  ⟨List.mem_of_find?_eq_some h, by simpa using List.find?_some h⟩

lemma ledgerSum_appendTransaction (s : DBState) (uid : Nat) (a : Int)
    (ty : TransactionType) (d : String) (r : Option String) (v : Nat) :
    ledgerSum (appendTransaction s uid a ty d r).2 v =
      ledgerSum s v + (if uid = v then a else 0) := by
  by_cases h : uid = v <;>
    simp [ledgerSum, appendTransaction, List.filter_append, h]

lemma ledgerSum_updateBalanceTo (s : DBState) (uid : Nat) (b : Int) (v : Nat) :
    ledgerSum (updateBalanceTo s uid b) v = ledgerSum s v := rfl

lemma ledgerSum_adjustBalanceBy (s : DBState) (uid : Nat) (d : Int) (v : Nat) :
    ledgerSum (adjustBalanceBy s uid d) v = ledgerSum s v := rfl

lemma updateBalanceTo_appendTransaction_comm (s : DBState) (uid v : Nat)
    (b a : Int) (ty : TransactionType) (d : String) (r : Option String) :
    updateBalanceTo (appendTransaction s uid a ty d r).2 v b =
      (appendTransaction (updateBalanceTo s v b) uid a ty d r).2 := rfl

/-- Inserting a participant touches neither balances nor the ledger. -/
lemma balancesMatchLedger_insertParticipant (rid uid : Nat)
    (role : ParticipantRole) (s : DBState) (h : balancesMatchLedger s) :
    balancesMatchLedger (insertParticipant rid uid role s).2 := h

/-- A balance write paired with a ledger entry of the same delta preserves
the balance/ledger synchronization (the `joinRoom`/`purchaseGold` form,
where the new balance is computed from the previously read row). -/
lemma balancesMatchLedger_update_append
    (s : DBState) (uid : Nat) (u : User) (newBal d : Int)
    (ty : TransactionType) (desc : String) (ref : Option String)
    (hnodup : (s.users.map fun x => x.id).Nodup)
    (hu : findUser s uid = some u)
    (hbal : newBal = u.gold_credits + d)
    (hinv : balancesMatchLedger s) :
    balancesMatchLedger
      (appendTransaction (updateBalanceTo s uid newBal) uid d ty desc ref).2 := by
  obtain ⟨hmem, hid⟩ := findUser_mem hu
  intro x hx
  have hx' : x ∈ (updateBalanceTo s uid newBal).users := hx
  simp only [updateBalanceTo, List.mem_map] at hx'
  obtain ⟨y, hy, rfl⟩ := hx'
  have hsum := ledgerSum_appendTransaction (updateBalanceTo s uid newBal) uid d ty desc ref
  by_cases hyid : y.id = uid
  · have hyu : y = u := List.inj_on_of_nodup_map hnodup hy hmem (by rw [hyid, hid])
    simp only [hyid, beq_self_eq_true, if_pos]
    rw [hsum]
    simp only [ledgerSum_updateBalanceTo]
    have := hinv u hmem
    subst hyu
    simp only [hyid, hbal, this, hid, if_pos]
  · simp only [beq_iff_eq, hyid, if_neg, ite_false]
    rw [hsum]
    simp only [ledgerSum_updateBalanceTo]
    have : ¬ (uid = y.id) := fun hh => hyid hh.symm
    simp [this]
    exact hinv y hy

/-- The in-place variant (`createRoom`'s SQL decrement): a delta applied to
whatever balance is stored, paired with a ledger entry of the same delta,
preserves the synchronization with no uniqueness assumption. -/
lemma balancesMatchLedger_adjust_append
    (s : DBState) (uid : Nat) (d : Int) (ty : TransactionType)
    (desc : String) (ref : Option String)
    (hinv : balancesMatchLedger s) :
    balancesMatchLedger
      (appendTransaction (adjustBalanceBy s uid d) uid d ty desc ref).2 := by
  intro x hx
  have hx' : x ∈ (adjustBalanceBy s uid d).users := hx
  simp only [adjustBalanceBy, List.mem_map] at hx'
  obtain ⟨y, hy, rfl⟩ := hx'
  have hsum := ledgerSum_appendTransaction (adjustBalanceBy s uid d) uid d ty desc ref
  have hbase := hinv y hy
  by_cases hyid : y.id = uid
  · simp [hyid, hsum, ledgerSum_adjustBalanceBy, hbase]
  · have hne : ¬ (uid = y.id) := fun hh => hyid hh.symm
    simp [hyid, hsum, ledgerSum_adjustBalanceBy, hne, hbase]

lemma balancesNonneg_updateBalanceTo (s : DBState) (uid : Nat) (newBal : Int)
    (hb : 0 ≤ newBal) (h : balancesNonneg s) :
    balancesNonneg (updateBalanceTo s uid newBal) := by
  intro x hx
  simp only [updateBalanceTo, List.mem_map] at hx
  obtain ⟨y, hy, rfl⟩ := hx
  by_cases hyid : y.id = uid
  · simp [hyid, hb]
  · simp [hyid, h y hy]

lemma balancesNonneg_adjustBalanceBy (s : DBState) (uid : Nat) (d : Int)
    (u : User) (hnodup : (s.users.map fun x => x.id).Nodup)
    (hu : findUser s uid = some u) (hd : 0 ≤ u.gold_credits + d)
    (h : balancesNonneg s) :
    balancesNonneg (adjustBalanceBy s uid d) := by
  obtain ⟨hmem, hid⟩ := findUser_mem hu
  intro x hx
  simp only [adjustBalanceBy, List.mem_map] at hx
  obtain ⟨y, hy, rfl⟩ := hx
  by_cases hyid : y.id = uid
  · have hyu : y = u := List.inj_on_of_nodup_map hnodup hy hmem (by rw [hyid, hid])
    subst hyu
    simp [hyid, hd]
  · simp [hyid, h y hy]

lemma users_map_id_updateBalanceTo (s : DBState) (uid : Nat) (b : Int) :
    ((updateBalanceTo s uid b).users.map fun u => u.id) =
      s.users.map fun u => u.id := by
  simp only [updateBalanceTo, List.map_map]
  refine List.map_congr_left fun a _ => ?_
  by_cases h : a.id = uid <;> simp [h]

lemma users_map_id_adjustBalanceBy (s : DBState) (uid : Nat) (d : Int) :
    ((adjustBalanceBy s uid d).users.map fun u => u.id) =
      s.users.map fun u => u.id := by
  simp only [adjustBalanceBy, List.map_map]
  refine List.map_congr_left fun a _ => ?_
  by_cases h : a.id = uid <;> simp [h]

/-! ## Frame lemmas: which branches leave the store untouched -/

/-- `joinRoom` rejected by one of its own checks (any error other than a
store failure) has not issued a single write: the store is exactly as
before. -/
lemma joinRoom_typedError_frame (input : JoinRoomInput) (userId : Nat)
    (w1 w2 w3 : Bool) (s : DBState) (e : HandlerError)
    (h : (joinRoom input userId w1 w2 w3 s).1 = .error e)
    (hne : e ≠ .storeFailure) :
    (joinRoom input userId w1 w2 w3 s).2 = s := by
  unfold joinRoom joinRoomInsert at h ⊢
  repeat' split at h
  all_goals simp_all

/-- `purchaseGold` rejected by its own check has not issued a single
write. -/
lemma purchaseGold_typedError_frame (input : PurchaseGoldInput)
    (userId now : Nat) (w1 w2 : Bool) (s : DBState) (e : HandlerError)
    (h : (purchaseGold input userId now w1 w2 s).1 = .error e)
    (hne : e ≠ .storeFailure) :
    (purchaseGold input userId now w1 w2 s).2 = s := by
  unfold purchaseGold at h ⊢
  repeat' split at h
  all_goals simp_all

/-- `createRoom` runs in a transaction: on ANY failure, store-level
included, the original state is returned. -/
lemma createRoom_error_frame (input : CreateRoomInput) (userId : Nat)
    (w1 w2 w3 w4 : Bool) (s : DBState) (e : HandlerError)
    (h : (createRoom input userId w1 w2 w3 w4 s).1 = .error e) :
    (createRoom input userId w1 w2 w3 w4 s).2 = s := by
  unfold createRoom createRoomInsert at h ⊢
  repeat' split at h
  all_goals try solve | simp_all
  all_goals split <;> simp_all

lemma findRoom_mem {s : DBState} {rid : Nat} {r : Room}
    (h : findRoom s rid = some r) : r ∈ s.rooms ∧ r.id = rid :=
  ⟨List.mem_of_find?_eq_some h, by simpa using List.find?_some h⟩

lemma find?_map_pred_inv {α β : Type} (f : α → β) (p : β → Bool) (q : α → Bool)
    (hpq : ∀ a, p (f a) = q a) (l : List α) :
    (l.map f).find? p = (l.find? q).map f := by
  induction l with
  | nil => rfl
  | cons a t ih =>
    simp only [List.map_cons, List.find?]
    rw [hpq a]
    cases hq : q a <;> simp [ih]

lemma findUser_updateBalanceTo (s : DBState) (uid : Nat) (b : Int) :
    findUser (updateBalanceTo s uid b) uid =
      (findUser s uid).map fun u => { u with gold_credits := b } := by
  unfold findUser updateBalanceTo
  rw [find?_map_pred_inv _ _ (fun u => u.id == uid)
    (by intro a; by_cases h : a.id = uid <;> simp [h])]
  cases hf : s.users.find? (fun u => u.id == uid) with
  | none => rfl
  | some u =>
    have h2 : u.id = uid := by simpa using List.find?_some hf
    simp [h2]

lemma findUser_adjustBalanceBy (s : DBState) (uid : Nat) (d : Int) :
    findUser (adjustBalanceBy s uid d) uid =
      (findUser s uid).map fun u => { u with gold_credits := u.gold_credits + d } := by
  unfold findUser adjustBalanceBy
  rw [find?_map_pred_inv _ _ (fun u => u.id == uid)
    (by intro a; by_cases h : a.id = uid <;> simp [h])]
  cases hf : s.users.find? (fun u => u.id == uid) with
  | none => rfl
  | some u =>
    have h2 : u.id = uid := by simpa using List.find?_some hf
    simp [h2]

lemma premiumCharge_of_not_premium {r : Room}
    (h : r.room_type ≠ RoomType.premium) : premiumCharge r = none := by
  unfold premiumCharge
  cases hrt : r.room_type <;> simp_all

lemma participantCount_insertParticipant (s : DBState) (rid uid : Nat)
    (role : ParticipantRole) (v : Nat) :
    participantCount (insertParticipant rid uid role s).2 v =
      participantCount s v + (if rid = v then 1 else 0) := by
  by_cases h : rid = v <;>
    simp [participantCount, insertParticipant, List.filter_append, h]

lemma participantCount_fresh_eq_zero (s : DBState)
    (hfresh : ∀ p ∈ s.participants, p.room_id < s.nextRoomId) :
    participantCount s s.nextRoomId = 0 := by
  unfold participantCount
  rw [List.length_eq_zero]
  rw [List.filter_eq_nil_iff]
  intro p hp
  have := hfresh p hp
  simp
  omega

lemma no_pair_of_pairRows_nil (s : DBState) (rid uid : Nat)
    (h : ¬ 0 < (pairRows s rid uid).length) :
    ∀ q ∈ s.participants, ¬(q.room_id = rid ∧ q.user_id = uid) := by
  intro q hq hqc
  apply h
  have hq' : q ∈ pairRows s rid uid := by
    unfold pairRows
    rw [List.mem_filter]
    exact ⟨hq, by simp [hqc.1, hqc.2]⟩
  exact List.length_pos.mpr (List.ne_nil_of_mem hq')

lemma pairUnique_insert_of_no_pair (s : DBState) (rid uid : Nat)
    (role : ParticipantRole)
    (hnone : ∀ q ∈ s.participants, ¬(q.room_id = rid ∧ q.user_id = uid))
    (hpu : pairUnique s) :
    pairUnique (insertParticipant rid uid role s).2 := by
  have hgoal : (insertParticipant rid uid role s).2.participants =
      s.participants ++
        [{ id := s.nextParticipantId, room_id := rid, user_id := uid,
           participant_role := role }] := rfl
  unfold pairUnique
  rw [hgoal, List.pairwise_append]
  refine ⟨hpu, by simp, ?_⟩
  intro a ha b hb
  simp only [List.mem_singleton] at hb
  subst hb
  simpa using hnone a ha

/-- Inserting a participant into a room that passed `joinRoom`'s capacity
check keeps every room within its cap. -/
lemma capacityOK_insert_under (s : DBState) (rid uid : Nat)
    (role : ParticipantRole) (room : Room)
    (hnodup : (s.rooms.map fun r => r.id).Nodup)
    (hR : findRoom s rid = some room)
    (hfull : joinRoomFull room rid s = false)
    (hcap : capacityOK s) :
    capacityOK (insertParticipant rid uid role s).2 := by
  obtain ⟨hmem, hid⟩ := findRoom_mem hR
  intro r hr
  have hr' : r ∈ s.rooms := hr
  have hcr := hcap r hr'
  cases hm : r.max_participants with
  | none => simp [hm]
  | some m =>
    simp only [hm] at hcr ⊢
    rw [participantCount_insertParticipant]
    by_cases hrid : rid = r.id
    · have hrroom : r = room :=
        List.inj_on_of_nodup_map hnodup hr' hmem (by rw [← hrid, hid])
      subst hrroom
      unfold joinRoomFull at hfull
      rw [hm] at hfull
      simp only [decide_eq_false_iff_not, not_le] at hfull
      rw [if_pos hrid, ← hrid]
      push_cast
      omega
    · simp [hrid, hcr]

/-- Inserting the creator into a freshly created room keeps every room
within its cap, provided the new room's cap (when set) is positive. -/
lemma capacityOK_newRoom_insert (s : DBState) (room : Room) (uid : Nat)
    (role : ParticipantRole)
    (hroomId : room.id = s.nextRoomId)
    (hcapRoom : ∀ m, room.max_participants = some m → 0 < m)
    (hroomsFresh : ∀ r ∈ s.rooms, r.id < s.nextRoomId)
    (hpartFresh : ∀ p ∈ s.participants, p.room_id < s.nextRoomId)
    (hcap : capacityOK s) :
    capacityOK (insertParticipant room.id uid role
      { s with rooms := s.rooms ++ [room], nextRoomId := s.nextRoomId + 1 }).2 := by
  intro r hr
  have hr' : r ∈ s.rooms ++ [room] := hr
  have hcount : ∀ v, participantCount (insertParticipant room.id uid role
      { s with rooms := s.rooms ++ [room], nextRoomId := s.nextRoomId + 1 }).2 v =
      participantCount s v + (if room.id = v then 1 else 0) := by
    intro v
    by_cases h : room.id = v <;>
      simp [participantCount, insertParticipant, List.filter_append, h]
  rcases List.mem_append.mp hr' with hold | hnew
  · have hcr := hcap r hold
    cases hm : r.max_participants with
    | none => simp [hm]
    | some m =>
      simp only [hm] at hcr ⊢
      rw [hcount]
      have : room.id ≠ r.id := by
        have := hroomsFresh r hold
        omega
      simp [this, hcr]
  · simp only [List.mem_singleton] at hnew
    subst hnew
    cases hm : r.max_participants with
    | none => simp [hm]
    | some m =>
      simp only [hm]
      rw [hcount]
      have hz : participantCount s r.id = 0 := by
        rw [hroomId]
        exact participantCount_fresh_eq_zero s hpartFresh
      have hmpos := hcapRoom m hm
      simp [hz]
      omega

/-! ## Well-formedness preservation for the primitives -/

lemma WF_updateBalanceTo (s : DBState) (uid : Nat) (b : Int) (hwf : WF s) :
    WF (updateBalanceTo s uid b) :=
  ⟨by rw [users_map_id_updateBalanceTo]; exact hwf.usersNodup,
   hwf.roomsNodup, hwf.roomsFresh, hwf.participantsRoomFresh⟩

lemma WF_adjustBalanceBy (s : DBState) (uid : Nat) (d : Int) (hwf : WF s) :
    WF (adjustBalanceBy s uid d) :=
  ⟨by rw [users_map_id_adjustBalanceBy]; exact hwf.usersNodup,
   hwf.roomsNodup, hwf.roomsFresh, hwf.participantsRoomFresh⟩

lemma WF_appendTransaction (s : DBState) (uid : Nat) (a : Int)
    (ty : TransactionType) (d : String) (r : Option String) (hwf : WF s) :
    WF (appendTransaction s uid a ty d r).2 :=
  ⟨hwf.usersNodup, hwf.roomsNodup, hwf.roomsFresh, hwf.participantsRoomFresh⟩

lemma WF_insertParticipant (s : DBState) (rid uid : Nat)
    (role : ParticipantRole) (hrid : rid < s.nextRoomId) (hwf : WF s) :
    WF (insertParticipant rid uid role s).2 := by
  refine ⟨hwf.usersNodup, hwf.roomsNodup, hwf.roomsFresh, ?_⟩
  intro p hp
  have hp' : p ∈ s.participants ++
      [{ id := s.nextParticipantId, room_id := rid, user_id := uid,
         participant_role := role }] := hp
  rcases List.mem_append.mp hp' with h | h
  · exact hwf.participantsRoomFresh p h
  · simp only [List.mem_singleton] at h
    subst h
    simpa using hrid

lemma WF_newRoom_insert (s : DBState) (room : Room) (uid : Nat)
    (role : ParticipantRole) (hroomId : room.id = s.nextRoomId) (hwf : WF s) :
    WF (insertParticipant room.id uid role
      { s with rooms := s.rooms ++ [room], nextRoomId := s.nextRoomId + 1 }).2 := by
  refine ⟨hwf.usersNodup, ?_, ?_, ?_⟩
  · rw [show (insertParticipant room.id uid role
        { s with rooms := s.rooms ++ [room],
                 nextRoomId := s.nextRoomId + 1 }).2.rooms =
        s.rooms ++ [room] from rfl]
    rw [List.map_append, List.nodup_append]
    refine ⟨hwf.roomsNodup, by simp, ?_⟩
    intro a ha
    simp only [List.mem_map] at ha
    obtain ⟨r, hr, rfl⟩ := ha
    have := hwf.roomsFresh r hr
    simp only [List.map_cons, List.map_nil, List.mem_singleton]
    omega
  · intro r hr
    have hr' : r ∈ s.rooms ++ [room] := hr
    show r.id < s.nextRoomId + 1
    rcases List.mem_append.mp hr' with h | h
    · have := hwf.roomsFresh r h
      omega
    · simp only [List.mem_singleton] at h
      subst h
      omega
  · intro p hp
    have hp' : p ∈ s.participants ++
        [{ id := s.nextParticipantId, room_id := room.id, user_id := uid,
           participant_role := role }] := hp
    show p.room_id < s.nextRoomId + 1
    rcases List.mem_append.mp hp' with h | h
    · have := hwf.participantsRoomFresh p h
      omega
    · simp only [List.mem_singleton] at h
      subst h
      show room.id < s.nextRoomId + 1
      omega

/-! ## Handler-level invariant preservation -/

/-- `joinRoom` keeps balances synchronized with the ledger on every path
that does not die between its balance write and its ledger write. -/
lemma joinRoom_ledger_inv (input : JoinRoomInput) (userId : Nat)
    (w1 w2 w3 : Bool) (s : DBState)
    (hnodup : (s.users.map fun x => x.id).Nodup)
    (hinv : balancesMatchLedger s)
    (hno : (joinRoom input userId w1 w2 w3 s).1 ≠ .error .storeFailure) :
    balancesMatchLedger (joinRoom input userId w1 w2 w3 s).2 := by
  unfold joinRoom joinRoomInsert insertParticipant at hno ⊢
  repeat' split
  all_goals try exact hinv
  all_goals try solve
    | exfalso; simp_all
  all_goals try (rename_i hpq; injection hpq with hp hs; subst hs)
  all_goals first
    | exact hinv
    | exact balancesMatchLedger_update_append s userId _ _ _ _ _ _
        hnodup (by assumption) (sub_eq_add_neg _ _) hinv

/-- The `purchaseGold` write order (ledger insert first, then the balance
write computed from the previously read row) as one invariant step. -/
lemma balancesMatchLedger_append_update
    (s : DBState) (uid : Nat) (u : User) (newBal d : Int)
    (ty : TransactionType) (desc : String) (ref : Option String)
    (hnodup : (s.users.map fun x => x.id).Nodup)
    (hu : findUser s uid = some u)
    (hbal : newBal = u.gold_credits + d)
    (hinv : balancesMatchLedger s) :
    balancesMatchLedger
      (updateBalanceTo (appendTransaction s uid d ty desc ref).2 uid newBal) := by
  rw [updateBalanceTo_appendTransaction_comm]
  exact balancesMatchLedger_update_append s uid u newBal d ty desc ref
    hnodup hu hbal hinv

/-- `purchaseGold` keeps balances synchronized with the ledger on every
path that does not die between its ledger write and its balance write. -/
lemma purchaseGold_ledger_inv (input : PurchaseGoldInput) (userId now : Nat)
    (w1 w2 : Bool) (s : DBState)
    (hnodup : (s.users.map fun x => x.id).Nodup)
    (hinv : balancesMatchLedger s)
    (hno : (purchaseGold input userId now w1 w2 s).1 ≠ .error .storeFailure) :
    balancesMatchLedger (purchaseGold input userId now w1 w2 s).2 := by
  unfold purchaseGold at hno ⊢
  repeat' split
  all_goals try exact hinv
  all_goals try solve
    | exfalso; simp_all
  all_goals
    exact balancesMatchLedger_append_update s userId _ _ _ _ _ _
      hnodup (by assumption) rfl hinv

/-- `createRoom` keeps balances synchronized with the ledger on every path,
store failures included (the transaction rolls everything back). -/
lemma createRoom_ledger_inv (input : CreateRoomInput) (userId : Nat)
    (w1 w2 w3 w4 : Bool) (s : DBState)
    (hinv : balancesMatchLedger s) :
    balancesMatchLedger (createRoom input userId w1 w2 w3 w4 s).2 := by
  unfold createRoom createRoomInsert insertParticipant
  repeat' split
  all_goals first
    | exact hinv
    | exact balancesMatchLedger_adjust_append s userId _ _ _ _ hinv

/-- No path of `joinRoom` drives a balance negative: the only debit writes
`user.gold_credits - cost` after checking `gold_credits < cost` fails. -/
lemma joinRoom_nonneg (input : JoinRoomInput) (userId : Nat)
    (w1 w2 w3 : Bool) (s : DBState)
    (hnn : balancesNonneg s) :
    balancesNonneg (joinRoom input userId w1 w2 w3 s).2 := by
  unfold joinRoom joinRoomInsert insertParticipant
  repeat' split
  all_goals try exact hnn
  all_goals try (rename_i hpq; injection hpq with hp hs; subst hs)
  all_goals first
    | exact hnn
    | exact balancesNonneg_updateBalanceTo _ _ _
        (sub_nonneg.mpr (not_lt.mp (by assumption))) hnn

/-- No path of `purchaseGold` drives a balance negative: the only write
adds a (schema-positive) amount to a previously non-negative balance. -/
lemma purchaseGold_nonneg (input : PurchaseGoldInput) (userId now : Nat)
    (w1 w2 : Bool) (s : DBState)
    (hv : input.Valid) (hnn : balancesNonneg s) :
    balancesNonneg (purchaseGold input userId now w1 w2 s).2 := by
  unfold purchaseGold
  repeat' split
  all_goals first
    | exact hnn
    | exact balancesNonneg_updateBalanceTo _ _ _
        (by
          have h1 := hnn _ (findUser_mem (by assumption)).1
          have h2 : 0 < input.amount := hv
          omega) hnn

/-- No path of `createRoom` drives a balance negative: the debit is guarded
by the funds check, and all failures roll back. -/
lemma createRoom_nonneg (input : CreateRoomInput) (userId : Nat)
    (w1 w2 w3 w4 : Bool) (s : DBState)
    (hnodup : (s.users.map fun x => x.id).Nodup)
    (hnn : balancesNonneg s) :
    balancesNonneg (createRoom input userId w1 w2 w3 w4 s).2 := by
  unfold createRoom createRoomInsert insertParticipant
  repeat' split
  all_goals first
    | exact hnn
    | exact balancesNonneg_adjustBalanceBy s userId _ _ hnodup (by assumption)
        (by omega) hnn

lemma maxParticipantsOrNull_pos (i : CreateRoomInput) (hvalid : i.Valid) :
    ∀ m, maxParticipantsOrNull i.max_participants = some m → 0 < m := by
  intro m hm
  unfold maxParticipantsOrNull at hm
  cases hi : i.max_participants with
  | none => rw [hi] at hm; cases hm
  | some n =>
    rw [hi] at hm
    by_cases hn : n = 0
    · simp [hn] at hm
    · simp only [hn, if_neg, ite_false, Option.some_inj] at hm
      subst hm
      exact hvalid.2.2.1 _ hi

lemma pairUnique_insert_fresh (s : DBState) (rid uid : Nat)
    (role : ParticipantRole)
    (hfresh : ∀ q ∈ s.participants, q.room_id ≠ rid)
    (hpu : pairUnique s) :
    pairUnique (insertParticipant rid uid role s).2 :=
  pairUnique_insert_of_no_pair s rid uid role
    (fun q hq hc => hfresh q hq hc.1) hpu

/-- `joinRoom` never pushes a capped room over its cap: the insert happens
only after the count check. -/
lemma joinRoom_capacity (input : JoinRoomInput) (userId : Nat)
    (w1 w2 w3 : Bool) (s : DBState)
    (hnodup : (s.rooms.map fun r => r.id).Nodup)
    (hcap : capacityOK s) :
    capacityOK (joinRoom input userId w1 w2 w3 s).2 := by
  unfold joinRoom joinRoomInsert
  repeat' split
  all_goals try exact hcap
  all_goals try (rename_i hpq; injection hpq with hp hs; subst hs)
  all_goals first
    | exact hcap
    | exact capacityOK_insert_under _ _ _ _ _ hnodup (by assumption)
        (Bool.eq_false_iff.mpr (by assumption)) hcap

/-- `createRoom` starts the new room with one participant, within the
(schema-positive) cap when one was given; other rooms are untouched. -/
lemma createRoom_capacity (input : CreateRoomInput) (userId : Nat)
    (w1 w2 w3 w4 : Bool) (s : DBState) (hvalid : input.Valid) (hwf : WF s)
    (hcap : capacityOK s) :
    capacityOK (createRoom input userId w1 w2 w3 w4 s).2 := by
  unfold createRoom createRoomInsert
  repeat' split
  all_goals first
    | exact hcap
    | exact capacityOK_newRoom_insert _ _ _ _ rfl
        (maxParticipantsOrNull_pos input hvalid)
        hwf.roomsFresh hwf.participantsRoomFresh hcap

/-- `purchaseGold` touches neither rooms nor participants. -/
lemma purchaseGold_capacity (input : PurchaseGoldInput) (userId now : Nat)
    (w1 w2 : Bool) (s : DBState) (hcap : capacityOK s) :
    capacityOK (purchaseGold input userId now w1 w2 s).2 := by
  unfold purchaseGold
  repeat' split
  all_goals exact hcap

/-- `joinRoom` inserts a pair row only after checking none exists. -/
lemma joinRoom_pairUnique (input : JoinRoomInput) (userId : Nat)
    (w1 w2 w3 : Bool) (s : DBState) (hpu : pairUnique s) :
    pairUnique (joinRoom input userId w1 w2 w3 s).2 := by
  unfold joinRoom joinRoomInsert
  repeat' split
  all_goals try exact hpu
  all_goals try (rename_i hpq; injection hpq with hp hs; subst hs)
  all_goals first
    | exact hpu
    | exact pairUnique_insert_of_no_pair _ _ _ _
        (no_pair_of_pairRows_nil s _ _ (by assumption)) hpu

/-- `createRoom`'s admin row belongs to the fresh room id, for which no
pair row can pre-exist. -/
lemma createRoom_pairUnique (input : CreateRoomInput) (userId : Nat)
    (w1 w2 w3 w4 : Bool) (s : DBState) (hwf : WF s) (hpu : pairUnique s) :
    pairUnique (createRoom input userId w1 w2 w3 w4 s).2 := by
  unfold createRoom createRoomInsert
  repeat' split
  all_goals first
    | exact hpu
    | exact pairUnique_insert_fresh _ _ _ _
        (fun q hq => Nat.ne_of_lt (hwf.participantsRoomFresh q hq)) hpu

/-- `purchaseGold` does not touch the participants table. -/
lemma purchaseGold_pairUnique (input : PurchaseGoldInput) (userId now : Nat)
    (w1 w2 : Bool) (s : DBState) (hpu : pairUnique s) :
    pairUnique (purchaseGold input userId now w1 w2 s).2 := by
  unfold purchaseGold
  repeat' split
  all_goals exact hpu

/-- `joinRoom` preserves structural well-formedness. -/
lemma joinRoom_WF (input : JoinRoomInput) (userId : Nat)
    (w1 w2 w3 : Bool) (s : DBState) (hwf : WF s) :
    WF (joinRoom input userId w1 w2 w3 s).2 := by
  unfold joinRoom joinRoomInsert
  repeat' split
  all_goals try exact hwf
  all_goals try (rename_i hpq; injection hpq with hp hs; subst hs)
  all_goals first
    | exact hwf
    | exact WF_updateBalanceTo _ _ _ hwf
    | exact WF_appendTransaction _ _ _ _ _ _ (WF_updateBalanceTo _ _ _ hwf)
    | exact WF_insertParticipant _ _ _ _
        (by
          rcases findRoom_mem (by assumption) with ⟨hmem, hid⟩
          exact hid ▸ hwf.roomsFresh _ hmem) hwf
    | exact WF_insertParticipant _ _ _ _
        (by
          rcases findRoom_mem (by assumption) with ⟨hmem, hid⟩
          exact hid ▸ hwf.roomsFresh _ hmem)
        (WF_appendTransaction _ _ _ _ _ _ (WF_updateBalanceTo _ _ _ hwf))

/-- `purchaseGold` preserves structural well-formedness. -/
lemma purchaseGold_WF (input : PurchaseGoldInput) (userId now : Nat)
    (w1 w2 : Bool) (s : DBState) (hwf : WF s) :
    WF (purchaseGold input userId now w1 w2 s).2 := by
  unfold purchaseGold
  repeat' split
  all_goals first
    | exact hwf
    | exact WF_appendTransaction _ _ _ _ _ _ hwf
    | exact WF_updateBalanceTo _ _ _ (WF_appendTransaction _ _ _ _ _ _ hwf)

/-- `createRoom` preserves structural well-formedness. -/
lemma createRoom_WF (input : CreateRoomInput) (userId : Nat)
    (w1 w2 w3 w4 : Bool) (s : DBState) (hwf : WF s) :
    WF (createRoom input userId w1 w2 w3 w4 s).2 := by
  unfold createRoom createRoomInsert
  repeat' split
  all_goals first
    | exact hwf
    | exact WF_newRoom_insert _ _ _ _ rfl hwf
    | exact WF_newRoom_insert _ _ _ _ rfl
        (WF_appendTransaction _ _ _ _ _ _ (WF_adjustBalanceBy _ _ _ hwf))

/-- Whether an op is a `createRoom` call (the one wrapped in
`db.transaction` in the source). -/
def Op.isCreate : Op → Prop
  | .create _ _ _ _ _ _ => True
  | _ => False

lemma applyOp_WF (o : Op) (s : DBState) (hwf : WF s) : WF (applyOp o s) := by
  cases o with
  | create input userId w1 w2 w3 w4 =>
    exact createRoom_WF input userId w1 w2 w3 w4 s hwf
  | join input userId w1 w2 w3 =>
    exact joinRoom_WF input userId w1 w2 w3 s hwf
  | purchase input userId now w1 w2 =>
    exact purchaseGold_WF input userId now w1 w2 s hwf

lemma applyOp_nonneg (o : Op) (s : DBState) (hv : o.Valid) (hwf : WF s)
    (hnn : balancesNonneg s) : balancesNonneg (applyOp o s) := by
  cases o with
  | create input userId w1 w2 w3 w4 =>
    exact createRoom_nonneg input userId w1 w2 w3 w4 s hwf.usersNodup hnn
  | join input userId w1 w2 w3 =>
    exact joinRoom_nonneg input userId w1 w2 w3 s hnn
  | purchase input userId now w1 w2 =>
    exact purchaseGold_nonneg input userId now w1 w2 s hv hnn

lemma applyOp_capacity (o : Op) (s : DBState) (hv : o.Valid) (hwf : WF s)
    (hcap : capacityOK s) : capacityOK (applyOp o s) := by
  cases o with
  | create input userId w1 w2 w3 w4 =>
    exact createRoom_capacity input userId w1 w2 w3 w4 s hv hwf hcap
  | join input userId w1 w2 w3 =>
    exact joinRoom_capacity input userId w1 w2 w3 s hwf.roomsNodup hcap
  | purchase input userId now w1 w2 =>
    exact purchaseGold_capacity input userId now w1 w2 s hcap

lemma applyOp_pairUnique (o : Op) (s : DBState) (hwf : WF s)
    (hpu : pairUnique s) : pairUnique (applyOp o s) := by
  cases o with
  | create input userId w1 w2 w3 w4 =>
    exact createRoom_pairUnique input userId w1 w2 w3 w4 s hwf hpu
  | join input userId w1 w2 w3 =>
    exact joinRoom_pairUnique input userId w1 w2 w3 s hpu
  | purchase input userId now w1 w2 =>
    exact purchaseGold_pairUnique input userId now w1 w2 s hpu

lemma runOps_cons (o : Op) (t : List Op) (s : DBState) :
    runOps (o :: t) s = runOps t (applyOp o s) := rfl

lemma runOps_nonneg (ops : List Op) (s : DBState)
    (hv : ∀ o ∈ ops, o.Valid) (hwf : WF s) (hnn : balancesNonneg s) :
    balancesNonneg (runOps ops s) := by
  induction ops generalizing s with
  | nil => exact hnn
  | cons o t ih =>
    rw [runOps_cons]
    exact ih (applyOp o s) (fun o' ho' => hv o' (List.mem_cons_of_mem _ ho'))
      (applyOp_WF o s hwf)
      (applyOp_nonneg o s (hv o (List.mem_cons_self _ _)) hwf hnn)

lemma runOps_capacity (ops : List Op) (s : DBState)
    (hv : ∀ o ∈ ops, o.Valid) (hwf : WF s) (hcap : capacityOK s) :
    capacityOK (runOps ops s) := by
  induction ops generalizing s with
  | nil => exact hcap
  | cons o t ih =>
    rw [runOps_cons]
    exact ih (applyOp o s) (fun o' ho' => hv o' (List.mem_cons_of_mem _ ho'))
      (applyOp_WF o s hwf)
      (applyOp_capacity o s (hv o (List.mem_cons_self _ _)) hwf hcap)

lemma runOps_pairUnique (ops : List Op) (s : DBState)
    (hwf : WF s) (hpu : pairUnique s) :
    pairUnique (runOps ops s) := by
  induction ops generalizing s with
  | nil => exact hpu
  | cons o t ih =>
    rw [runOps_cons]
    exact ih (applyOp o s) (applyOp_WF o s hwf) (applyOp_pairUnique o s hwf hpu)

/-! ## `joinRoom` reads the users table only on the paid-premium path -/

lemma findRoom_users_irrel (s : DBState) (us' : List User) (rid : Nat) :
    findRoom { s with users := us' } rid = findRoom s rid := rfl

lemma pairRows_users_irrel (s : DBState) (us' : List User) (rid uid : Nat) :
    pairRows { s with users := us' } rid uid = pairRows s rid uid := rfl

lemma joinRoomFull_users_irrel (room : Room) (s : DBState) (us' : List User)
    (rid : Nat) :
    joinRoomFull room rid { s with users := us' } = joinRoomFull room rid s := rfl

/-- On any room that carries no premium charge, `joinRoom` touches neither
the balance store nor the ledger. -/
lemma joinRoom_no_money (input : JoinRoomInput) (userId : Nat)
    (w1 w2 w3 : Bool) (t : DBState) (room : Room)
    (hR : findRoom t input.room_id = some room)
    (hc : premiumCharge room = none) :
    (joinRoom input userId w1 w2 w3 t).2.users = t.users ∧
    (joinRoom input userId w1 w2 w3 t).2.transactions = t.transactions := by
  unfold joinRoom joinRoomInsert insertParticipant
  repeat' split
  all_goals try (rename_i hpq; injection hpq with hp hs; subst hs)
  all_goals simp_all

/-- On any room that carries no premium charge, the whole of `joinRoom` is
independent of the users table: the result is the same for ANY contents of
`users` (in particular for a nonexistent acting user), and the final state
differs from the usual one only by that untouched users list. -/
lemma joinRoom_users_independent (input : JoinRoomInput) (userId : Nat)
    (w1 w2 w3 : Bool) (s : DBState) (us' : List User) (room : Room)
    (hR : findRoom s input.room_id = some room)
    (hc : premiumCharge room = none) :
    joinRoom input userId w1 w2 w3 { s with users := us' } =
      ((joinRoom input userId w1 w2 w3 s).1,
        { (joinRoom input userId w1 w2 w3 s).2 with users := us' }) := by
  unfold joinRoom joinRoomInsert insertParticipant
  rw [findRoom_users_irrel, hR]
  simp only [pairRows_users_irrel, joinRoomFull_users_irrel, hc]
  repeat' split
  all_goals simp_all

/-! ## Further concrete fixtures for the claim instances -/

/-- The `createRoom` input of scenario seed 6: a PUBLIC room with a
supplied `gold_cost` of 50. -/
def fxPubInput : CreateRoomInput :=
  { name := "lobby", description := none, room_type := .pub,
    max_participants := none, gold_cost := some 50 }

/-- User 2 with 25 credits (scenario seed 2) next to the 50-cost premium
room; the ledger backs both balances. -/
def fxPoor : DBState :=
  { users := [{ id := 2, gold_credits := 25 }]
    rooms := [fxPremiumRoom]
    participants := []
    transactions :=
      [{ id := 0, user_id := 2, amount := 25, transaction_type := .purchase,
         description := "seed", reference_id := none }]
    nextRoomId := 2, nextParticipantId := 1, nextTransactionId := 1 }

/-- User 1 with 500 credits (scenario seed 1), no rooms yet. -/
def fxRich : DBState :=
  { users := [{ id := 1, gold_credits := 500 }]
    rooms := []
    participants := []
    transactions :=
      [{ id := 0, user_id := 1, amount := 500, transaction_type := .purchase,
         description := "seed", reference_id := none }]
    nextRoomId := 1, nextParticipantId := 1, nextTransactionId := 1 }

/-- The `createRoom` input of scenario seed 1: premium, cost 100. -/
def fxPremiumInput : CreateRoomInput :=
  { name := "vip", description := none, room_type := .premium,
    max_participants := none, gold_cost := some 100 }

/-- An active public room storing `gold_cost` 50 (as `createRoom` stores
it). -/
def fxPubRoom : Room :=
  { id := 3, name := "lobby", description := none,
    room_type := .pub, max_participants := none,
    gold_cost := some 50, owner_id := 1, is_active := true }

/-- A store holding only the public room and NO user rows at all. -/
def fxPubState : DBState :=
  { users := []
    rooms := [fxPubRoom]
    participants := []
    transactions := []
    nextRoomId := 4, nextParticipantId := 1, nextTransactionId := 1 }

/-! ## The claims -/

/-- C1, counterexample: `joinRoom` is NOT all-or-nothing when a durable
store step fails partway.  On `fxS` (user 1 with 100 credits, premium room
1 costing 50), a join whose participant insert fails (`w3 = false`) after
the debit and the ledger insert succeeded reports a failure, yet the
balance store has dropped to 50, the ledger has grown, and no participant
row exists — partial effects persist, contradicting the claim. -/
theorem C1_counterexample :
    (joinRoom ⟨1⟩ 1 true true false fxS).1 =
      Except.error HandlerError.storeFailure ∧
    userBalance fxS 1 = some 100 ∧
    userBalance (joinRoom ⟨1⟩ 1 true true false fxS).2 1 = some 50 ∧
    (joinRoom ⟨1⟩ 1 true true false fxS).2.transactions.length =
      fxS.transactions.length + 1 ∧
    (joinRoom ⟨1⟩ 1 true true false fxS).2.participants = [] := by
  decide

/-- C1, amended: `createRoom` (which runs in a DB transaction) is
all-or-nothing under every failure, store failures included; `joinRoom`
and `purchaseGold` are all-or-nothing only with respect to their own typed
rejections — any failure other than a mid-operation store failure leaves
the balance store, ledger, rooms and participants exactly as before. -/
theorem C1_amended_atomicity (o : Op) (s : DBState) (e : HandlerError)
    (herr : opErr o s = some e)
    (hsafe : e ≠ HandlerError.storeFailure ∨ Op.isCreate o) :
    applyOp o s = s := by
  cases o with
  | create input userId w1 w2 w3 w4 =>
    unfold opErr at herr
    unfold applyOp
    cases h1 : (createRoom input userId w1 w2 w3 w4 s).1 with
    | error e' => exact createRoom_error_frame input userId w1 w2 w3 w4 s e' h1
    | ok r => simp [h1] at herr
  | join input userId w1 w2 w3 =>
    have hne : e ≠ .storeFailure := by
      rcases hsafe with h | h
      · exact h
      · exact h.elim
    unfold opErr at herr
    unfold applyOp
    cases h1 : (joinRoom input userId w1 w2 w3 s).1 with
    | error e' =>
      simp only [h1, Option.some_inj] at herr
      subst herr
      exact joinRoom_typedError_frame input userId w1 w2 w3 s e' h1 hne
    | ok r => simp [h1] at herr
  | purchase input userId now w1 w2 =>
    have hne : e ≠ .storeFailure := by
      rcases hsafe with h | h
      · exact h
      · exact h.elim
    unfold opErr at herr
    unfold applyOp
    cases h1 : (purchaseGold input userId now w1 w2 s).1 with
    | error e' =>
      simp only [h1, Option.some_inj] at herr
      subst herr
      exact purchaseGold_typedError_frame input userId now w1 w2 s e' h1 hne
    | ok r => simp [h1] at herr

/-- C1 witness: the amended theorem applied to a join of a nonexistent
room on `fxS`. -/
theorem C1_amended_atomicity_witness :
    applyOp (Op.join ⟨99⟩ 1 true true true) fxS = fxS :=
  C1_amended_atomicity (Op.join ⟨99⟩ 1 true true true) fxS
    HandlerError.roomNotFound (by decide) (Or.inl (by decide))

/-- C2, counterexample: a `purchaseGold` whose balance update fails after
the ledger insert succeeded (`w1 = true, w2 = false`) leaves the ledger
with a +100 entry the balance never received: `balancesMatchLedger` held
before the call and is broken after it, contradicting the claim that every
failing execution preserves it. -/
theorem C2_counterexample :
    balancesMatchLedger fxS ∧
    (purchaseGold ⟨100, none⟩ 1 5 true false fxS).1 =
      Except.error HandlerError.storeFailure ∧
    ¬ balancesMatchLedger (purchaseGold ⟨100, none⟩ 1 5 true false fxS).2 := by
  decide

/-- C2, amended: every `createRoom`, `joinRoom` or `purchaseGold` call that
does not die on a mid-operation store failure — every success and every
typed rejection — preserves `gold_credits = Σ ledger amounts` for every
user: each balance write is paired with exactly one ledger entry of the
same signed amount. -/
theorem C2_amended_ledger_sync (o : Op) (s : DBState) (hwf : WF s)
    (hinv : balancesMatchLedger s)
    (hno : opErr o s ≠ some HandlerError.storeFailure) :
    balancesMatchLedger (applyOp o s) := by
  cases o with
  | create input userId w1 w2 w3 w4 =>
    exact createRoom_ledger_inv input userId w1 w2 w3 w4 s hinv
  | join input userId w1 w2 w3 =>
    refine joinRoom_ledger_inv input userId w1 w2 w3 s hwf.usersNodup hinv ?_
    intro hcontra
    apply hno
    simp only [opErr]
    rw [hcontra]
  | purchase input userId now w1 w2 =>
    refine purchaseGold_ledger_inv input userId now w1 w2 s hwf.usersNodup hinv ?_
    intro hcontra
    apply hno
    simp only [opErr]
    rw [hcontra]

/-- C2 witness: a successful purchase of 100 credits on `fxS` keeps the
balance equal to the ledger sum. -/
theorem C2_amended_ledger_sync_witness :
    balancesMatchLedger (applyOp (Op.purchase ⟨100, none⟩ 1 7 true true) fxS) :=
  C2_amended_ledger_sync (Op.purchase ⟨100, none⟩ 1 7 true true) fxS
    ⟨by decide, by decide, by decide, by decide⟩ (by decide) (by decide)

/-- C3: starting from a well-formed store with no negative balance, no
sequence of `createRoom` / `joinRoom` / `purchaseGold` calls (under any
pattern of store-step outcomes) ever drives any user's `gold_credits`
negative: every debit is guarded by a sufficient-funds check and purchases
only add schema-positive amounts. -/
theorem C3_balances_never_negative (ops : List Op) (s : DBState)
    (hv : ∀ o ∈ ops, o.Valid) (hwf : WF s) (hnn : balancesNonneg s) :
    balancesNonneg (runOps ops s) :=
  runOps_nonneg ops s hv hwf hnn

/-- C3 witness: a purchase then a premium join on `fxS` keep all balances
non-negative. -/
theorem C3_balances_never_negative_witness :
    balancesNonneg (runOps
      [Op.purchase ⟨100, none⟩ 1 7 true true, Op.join ⟨1⟩ 1 true true true]
      fxS) :=
  C3_balances_never_negative _ fxS
    (by
      intro o ho
      simp only [List.mem_cons, List.not_mem_nil, or_false] at ho
      rcases ho with rfl | rfl
      · exact (by decide : (0 : Int) < 100)
      · exact trivial)
    ⟨by decide, by decide, by decide, by decide⟩ (by decide)

/-- C4, counterexample: `createRoom` with `room_type = public` and
`gold_cost = 50` supplied does NOT store the room with a null/absent
`gold_cost`: the column is stored verbatim as 50 (the source stores
`input.gold_cost !== undefined ? input.gold_cost : null`).  The monetary
half of the claim does hold: balance store and ledger are untouched. -/
theorem C4_counterexample :
    (createRoom fxPubInput 1 true true true true fxS).1.map Room.gold_cost =
      Except.ok (some 50) ∧
    (createRoom fxPubInput 1 true true true true fxS).2.users = fxS.users ∧
    (createRoom fxPubInput 1 true true true true fxS).2.transactions =
      fxS.transactions := by
  decide

/-- C4, amended: for every non-premium `createRoom`, the supplied
`gold_cost` is ignored for all monetary purposes — the balance store and
the ledger are untouched on every path — but the created room STORES the
supplied `gold_cost` verbatim (50 stays 50, not null); this stored value
is inert for charging, since `joinRoom` only ever charges rooms whose
`room_type` is `premium`. -/
theorem C4_amended_public_cost (input : CreateRoomInput) (userId : Nat)
    (w1 w2 w3 w4 : Bool) (s : DBState)
    (hrt : input.room_type ≠ RoomType.premium) :
    (createRoom input userId w1 w2 w3 w4 s).2.users = s.users ∧
    (createRoom input userId w1 w2 w3 w4 s).2.transactions = s.transactions ∧
    (∀ r, (createRoom input userId w1 w2 w3 w4 s).1 = Except.ok r →
      r.gold_cost = input.gold_cost ∧ r.room_type = input.room_type) ∧
    (∀ (t : DBState) (rid uid : Nat) (v1 v2 v3 : Bool) (room : Room),
      findRoom t rid = some room → room.room_type ≠ RoomType.premium →
      (joinRoom ⟨rid⟩ uid v1 v2 v3 t).2.users = t.users ∧
      (joinRoom ⟨rid⟩ uid v1 v2 v3 t).2.transactions = t.transactions) := by
  refine ⟨?_, ?_, ?_, ?_⟩
  · unfold createRoom createRoomInsert insertParticipant
    repeat' split
    all_goals simp_all
  · unfold createRoom createRoomInsert insertParticipant
    repeat' split
    all_goals simp_all
  · intro r hr
    unfold createRoom createRoomInsert insertParticipant at hr
    repeat' split at hr
    all_goals try solve | simp_all
    all_goals (simp at hr; subst hr; exact ⟨rfl, rfl⟩)
  · intro t rid uid v1 v2 v3 room hR hnp
    exact joinRoom_no_money ⟨rid⟩ uid v1 v2 v3 t room hR
      (premiumCharge_of_not_premium hnp)

/-- C4 witness: the amended theorem at the scenario-seed-6 input. -/
theorem C4_amended_public_cost_witness :
    (createRoom fxPubInput 1 true true true true fxS).2.users = fxS.users :=
  (C4_amended_public_cost fxPubInput 1 true true true true fxS (by decide)).1

/-- C5: every rejection of `joinRoom` with one of its five typed errors
(not-found — room or user —, inactive, already-member, room-full,
insufficient-funds) leaves the store exactly as before: balance, ledger
and pair rows are unchanged, because every check precedes every write. -/
theorem C5_join_rejection_no_effects (input : JoinRoomInput) (userId : Nat)
    (w1 w2 w3 : Bool) (s : DBState) (e : HandlerError)
    (h : (joinRoom input userId w1 w2 w3 s).1 = Except.error e)
    (he : e = HandlerError.roomNotFound ∨ e = HandlerError.roomInactive ∨
          e = HandlerError.alreadyParticipant ∨ e = HandlerError.roomFull ∨
          e = HandlerError.userNotFound ∨ e = HandlerError.insufficientFunds) :
    (joinRoom input userId w1 w2 w3 s).2 = s ∧
    userBalance (joinRoom input userId w1 w2 w3 s).2 userId =
      userBalance s userId ∧
    (joinRoom input userId w1 w2 w3 s).2.transactions = s.transactions ∧
    pairRows (joinRoom input userId w1 w2 w3 s).2 input.room_id userId =
      pairRows s input.room_id userId := by
  have hne : e ≠ HandlerError.storeFailure := by
    rcases he with rfl | rfl | rfl | rfl | rfl | rfl <;> decide
  have hframe := joinRoom_typedError_frame input userId w1 w2 w3 s e h hne
  rw [hframe]
  exact ⟨rfl, rfl, rfl, rfl⟩

/-- C5 witness: scenario seed 2 — user 2 with 25 credits rejected with
insufficient funds from the 50-cost premium room; the store is untouched. -/
theorem C5_join_rejection_no_effects_witness :
    (joinRoom ⟨1⟩ 2 true true true fxPoor).2 = fxPoor ∧
    userBalance (joinRoom ⟨1⟩ 2 true true true fxPoor).2 2 =
      userBalance fxPoor 2 ∧
    (joinRoom ⟨1⟩ 2 true true true fxPoor).2.transactions =
      fxPoor.transactions ∧
    pairRows (joinRoom ⟨1⟩ 2 true true true fxPoor).2 1 2 =
      pairRows fxPoor 1 2 :=
  C5_join_rejection_no_effects ⟨1⟩ 2 true true true fxPoor
    HandlerError.insufficientFunds (by decide)
    (Or.inr (Or.inr (Or.inr (Or.inr (Or.inr rfl)))))

/-- C6: a premium `createRoom` with a positive cost by a sufficiently
funded existing user succeeds with exactly the specified effects: balance
debited by the cost, one `spend` ledger entry of `-cost` with description
"Room creation: {name}", an active room, and the creator inserted as an
`admin` participant. -/
theorem C6_premium_create_effects (input : CreateRoomInput) (userId : Nat)
    (s : DBState) (u : User) (c : Int)
    (hrt : input.room_type = RoomType.premium)
    (hgc : input.gold_cost = some c)
    (hc : 0 < c)
    (hU : findUser s userId = some u)
    (hfunds : c ≤ u.gold_credits) :
    ∃ room,
      (createRoom input userId true true true true s).1 = Except.ok room ∧
      room.is_active = true ∧
      room.room_type = RoomType.premium ∧
      room.gold_cost = some c ∧
      room.owner_id = userId ∧
      userBalance (createRoom input userId true true true true s).2 userId =
        some (u.gold_credits - c) ∧
      (createRoom input userId true true true true s).2.transactions =
        s.transactions ++
          [{ id := s.nextTransactionId, user_id := userId, amount := -c,
             transaction_type := .spend,
             description := "Room creation: " ++ input.name,
             reference_id := none }] ∧
      (createRoom input userId true true true true s).2.participants =
        s.participants ++
          [{ id := s.nextParticipantId, room_id := s.nextRoomId,
             user_id := userId, participant_role := .admin }] := by
  have hlt : ¬ u.gold_credits < c := not_lt.mpr hfunds
  unfold createRoom createRoomInsert
  simp only [hU, hrt, hgc, if_neg hlt, if_pos hc]
  refine ⟨_, rfl, rfl, rfl, rfl, rfl, ?_, rfl, rfl⟩
  show userBalance (adjustBalanceBy s userId (-c)) userId =
    some (u.gold_credits - c)
  unfold userBalance
  rw [findUser_adjustBalanceBy, hU]
  simp [sub_eq_add_neg]

/-- C6 witness: scenario seed 1 — 500 credits, premium room costing 100:
balance 400, one `-100` spend entry, active room, admin participant. -/
theorem C6_premium_create_effects_witness :
    ∃ room,
      (createRoom fxPremiumInput 1 true true true true fxRich).1 =
        Except.ok room ∧
      room.is_active = true ∧
      room.room_type = RoomType.premium ∧
      room.gold_cost = some 100 ∧
      room.owner_id = 1 ∧
      userBalance (createRoom fxPremiumInput 1 true true true true fxRich).2 1 =
        some (500 - 100) ∧
      (createRoom fxPremiumInput 1 true true true true fxRich).2.transactions =
        fxRich.transactions ++
          [{ id := 1, user_id := 1, amount := -100,
             transaction_type := .spend,
             description := "Room creation: " ++ fxPremiumInput.name,
             reference_id := none }] ∧
      (createRoom fxPremiumInput 1 true true true true fxRich).2.participants =
        fxRich.participants ++
          [{ id := 1, room_id := 1, user_id := 1,
             participant_role := .admin }] :=
  C6_premium_create_effects fxPremiumInput 1 fxRich
    { id := 1, gold_credits := 500 } 100 rfl rfl (by decide) (by decide)
    (by decide)

/-- C7: `purchaseGold` with a positive amount and an existing user
succeeds, credits exactly that amount, and appends exactly one `purchase`
ledger entry with description "Gold purchase: {amount} credits"; a missing
`payment_reference` yields a generated reference containing the user id,
and NO call is deduplicated — whatever the reference, the ledger always
grows by exactly the one new entry. -/
theorem C7_purchase_effects (input : PurchaseGoldInput) (userId now : Nat)
    (s : DBState) (u : User)
    (hv : input.Valid)
    (hU : findUser s userId = some u) :
    ∃ txn,
      (purchaseGold input userId now true true s).1 = Except.ok txn ∧
      txn.amount = input.amount ∧
      txn.transaction_type = TransactionType.purchase ∧
      txn.description =
        "Gold purchase: " ++ toString input.amount ++ " credits" ∧
      txn.reference_id =
        some (paymentRefOr input.payment_reference now userId) ∧
      (input.payment_reference = none →
        ∃ pre, txn.reference_id = some (pre ++ toString userId)) ∧
      userBalance (purchaseGold input userId now true true s).2 userId =
        some (u.gold_credits + input.amount) ∧
      (purchaseGold input userId now true true s).2.transactions =
        s.transactions ++ [txn] := by
  have hpos : 0 < input.amount := hv
  unfold purchaseGold
  rw [hU]
  refine ⟨_, rfl, rfl, rfl, rfl, rfl, ?_, ?_, rfl⟩
  · intro h
    refine ⟨("purchase_" ++ toString now ++ "_"), ?_⟩
    rw [h]
    rfl
  · show userBalance
      (updateBalanceTo
        (appendTransaction s userId input.amount .purchase
          ("Gold purchase: " ++ toString input.amount ++ " credits")
          (some (paymentRefOr input.payment_reference now userId))).2
        userId (u.gold_credits + input.amount)) userId =
      some (u.gold_credits + input.amount)
    unfold userBalance
    rw [findUser_updateBalanceTo]
    rw [show findUser
      (appendTransaction s userId input.amount .purchase
        ("Gold purchase: " ++ toString input.amount ++ " credits")
        (some (paymentRefOr input.payment_reference now userId))).2 userId =
      some u from hU]
    rfl

/-- C7 witness: scenario seed 5 — purchase of 100 on a user with 50
credits at clock 12: balance 150, one `+100` purchase entry with the
generated reference ending in the user id. -/
theorem C7_purchase_effects_witness :
    ∃ txn,
      (purchaseGold ⟨100, none⟩ 2 12 true true fxPoor).1 = Except.ok txn ∧
      txn.amount = 100 ∧
      txn.transaction_type = TransactionType.purchase ∧
      txn.description = "Gold purchase: " ++ toString (100 : Int) ++ " credits" ∧
      txn.reference_id = some (paymentRefOr none 12 2) ∧
      ((none : Option String) = none →
        ∃ pre, txn.reference_id = some (pre ++ toString (2 : Nat))) ∧
      userBalance (purchaseGold ⟨100, none⟩ 2 12 true true fxPoor).2 2 =
        some (25 + 100) ∧
      (purchaseGold ⟨100, none⟩ 2 12 true true fxPoor).2.transactions =
        fxPoor.transactions ++ [txn] :=
  C7_purchase_effects ⟨100, none⟩ 2 12 fxPoor { id := 2, gold_credits := 25 }
    (show (0 : Int) < 100 by decide) (by decide)

/-- `joinRoom` can only answer `userNotFound` on the paid-premium path. -/
lemma joinRoom_uncharged_no_usercheck (input : JoinRoomInput) (userId : Nat)
    (w1 w2 w3 : Bool) (s : DBState) (room : Room)
    (hR : findRoom s input.room_id = some room)
    (hc : premiumCharge room = none)
    (h : (joinRoom input userId w1 w2 w3 s).1 =
      Except.error HandlerError.userNotFound) : False := by
  unfold joinRoom joinRoomInsert at h
  repeat' split at h
  all_goals simp_all

/-- Whatever acting user id `joinRoom` was handed is the one written into
the participant row. -/
lemma joinRoom_ok_user_id (input : JoinRoomInput) (userId : Nat)
    (w1 w2 w3 : Bool) (s : DBState) (p : RoomParticipant)
    (h : (joinRoom input userId w1 w2 w3 s).1 = Except.ok p) :
    p.user_id = userId := by
  unfold joinRoom joinRoomInsert insertParticipant at h
  repeat' split at h
  all_goals try (rename_i hpq; injection hpq with hp hs; subst hs; subst hp)
  all_goals simp_all
  all_goals (subst h; rfl)

/-- C8: no room ever exceeds its `max_participants` cap under any sequence
of (schema-valid) calls, and a join against a room already at its cap is
rejected with `RoomFull` with the store untouched. -/
theorem C8_capacity_never_exceeded (ops : List Op) (s : DBState)
    (hv : ∀ o ∈ ops, o.Valid) (hwf : WF s) (hcap : capacityOK s) :
    capacityOK (runOps ops s) ∧
    (∀ (input : JoinRoomInput) (userId : Nat) (w1 w2 w3 : Bool)
       (room : Room) (m : Int),
      findRoom s input.room_id = some room →
      room.is_active = true →
      pairRows s input.room_id userId = [] →
      room.max_participants = some m →
      m ≤ (participantCount s input.room_id : Int) →
      joinRoom input userId w1 w2 w3 s =
        (Except.error HandlerError.roomFull, s)) := by
  refine ⟨runOps_capacity ops s hv hwf hcap, ?_⟩
  intro input userId w1 w2 w3 room m hR hact hpair hmax hcount
  have hfull : joinRoomFull room input.room_id s = true := by
    unfold joinRoomFull
    rw [hmax]
    simpa using hcount
  unfold joinRoom
  rw [hR]
  simp [hact, hpair, hfull]

/-- C8 witness: one join on the capacity-free premium room of `fxS` keeps
every capped room within its cap. -/
theorem C8_capacity_never_exceeded_witness :
    capacityOK (runOps [Op.join ⟨1⟩ 1 true true true] fxS) :=
  (C8_capacity_never_exceeded [Op.join ⟨1⟩ 1 true true true] fxS
    (by
      intro o ho
      simp only [List.mem_cons, List.not_mem_nil, or_false] at ho
      subst ho
      exact trivial)
    ⟨by decide, by decide, by decide, by decide⟩ (by decide)).1

/-- C9, counterexample: the `room_participants` declaration enforces NO
uniqueness constraint on (room_id, user_id) — its only uniqueness
constraint is the serial primary key on `id` — contradicting the claim
that pair uniqueness is enforced by the store in addition to the
handler's pre-check. -/
theorem C9_counterexample :
    ¬ ∃ cols ∈ uniquenessConstraints roomParticipantsTable,
      "room_id" ∈ cols ∧ "user_id" ∈ cols := by
  decide

/-- C9, amended: at most one participant row per (room, user) pair is
maintained purely by the handlers — `joinRoom` pre-checks the pair and
`createRoom` inserts into a fresh room — while the table declaration
itself carries only the primary-key constraint on `id`, no (room, user)
uniqueness constraint. -/
theorem C9_amended_pair_unique (ops : List Op) (s : DBState)
    (hwf : WF s) (hpu : pairUnique s) :
    pairUnique (runOps ops s) ∧
    uniquenessConstraints roomParticipantsTable = [["id"]] :=
  ⟨runOps_pairUnique ops s hwf hpu, by decide⟩

/-- C9 witness: one join on `fxS` keeps pair rows unique. -/
theorem C9_amended_pair_unique_witness :
    pairUnique (runOps [Op.join ⟨1⟩ 1 true true true] fxS) ∧
    uniquenessConstraints roomParticipantsTable = [["id"]] :=
  C9_amended_pair_unique [Op.join ⟨1⟩ 1 true true true] fxS
    ⟨by decide, by decide, by decide, by decide⟩ (by decide)

/-- C10: `joinRoom` consults the users table ONLY on the paid-premium
path.  For a room with no premium charge the entire call is independent of
the users table (so it never raises the handler's user-not-found error and
inserts the supplied `userId` verbatim, existing or not), while for a
charged premium room a missing user is rejected with `userNotFound`. -/
theorem C10_user_check_only_when_charged (input : JoinRoomInput)
    (userId : Nat) (w1 w2 w3 : Bool) (s : DBState) (room : Room)
    (hR : findRoom s input.room_id = some room) :
    (premiumCharge room = none →
      (∀ us', joinRoom input userId w1 w2 w3 { s with users := us' } =
        ((joinRoom input userId w1 w2 w3 s).1,
          { (joinRoom input userId w1 w2 w3 s).2 with users := us' })) ∧
      (joinRoom input userId w1 w2 w3 s).1 ≠
        Except.error HandlerError.userNotFound ∧
      (∀ p, (joinRoom input userId w1 w2 w3 s).1 = Except.ok p →
        p.user_id = userId)) ∧
    (∀ c, premiumCharge room = some c →
      findUser s userId = none →
      room.is_active = true →
      pairRows s input.room_id userId = [] →
      joinRoomFull room input.room_id s = false →
      joinRoom input userId w1 w2 w3 s =
        (Except.error HandlerError.userNotFound, s)) := by
  constructor
  · intro hc
    exact ⟨fun us' =>
        joinRoom_users_independent input userId w1 w2 w3 s us' room hR hc,
      fun hcontra =>
        joinRoom_uncharged_no_usercheck input userId w1 w2 w3 s room
          hR hc hcontra,
      fun p hp => joinRoom_ok_user_id input userId w1 w2 w3 s p hp⟩
  · intro c hc hU hact hpair hfull
    unfold joinRoom
    rw [hR]
    simp [hact, hpair, hfull, hc, hU]

/-- C10 witness: joining the public room of `fxPubState` as the
nonexistent user 42 does not produce a user-not-found error. -/
theorem C10_user_check_only_when_charged_witness :
    (joinRoom ⟨3⟩ 42 true true true fxPubState).1 ≠
      Except.error HandlerError.userNotFound :=
  ((C10_user_check_only_when_charged ⟨3⟩ 42 true true true fxPubState
    fxPubRoom (by decide)).1 (by decide)).2.1
